import Mathlib

/- Shallow embedding of the core logic of src/Product_360_Metadata_Manager.py.

Modelling conventions, fixed once for the whole development:
* The program is Windows-only (tkinter GUI, %userprofile%, C:\ roots); paths
  handed to the discovery functions are Windows-style strings joined with a
  single backslash, exactly as the program builds them with os.path.join.
  os.path.basename is modelled as the substring after the last backslash.
* str.lower of Python is modelled character-wise with Char.toLower; every
  keyword constant of the program is ASCII, where the two agree.
* The substring test `needle in hay` of Python is the infix relation on the
  character lists; `str.startswith` is the prefix relation; `str.strip`
  removes leading and trailing whitespace characters.
* The filesystem seen by the scanner is a pair of functions: the directory
  children of a path (os.listdir filtered by os.path.isdir; a failing listdir
  is caught by the code and modelled as no children) and whether a path
  contains the marker file pim-desktop.cmd.
* The filesystem seen by backup/restore/update_dates is explicit state: a
  finite association list of (path, content) regular files plus a list of
  existing directories, with paths as segment lists (os.path.join appends
  segments).  shutil.copy2 is a whole-file content copy; its sources are
  guarded by existence checks in the code and are regular files in this model.
* date.today().isoformat() and os.path.expandvars('%userprofile%') are
  environment inputs: the former is the explicit `today` argument, the latter
  a fixed profile directory inside archive_folder.
* The tkinter message boxes and dropdown widgets are the excluded GUI layer;
  their data content (result status, dropdown values) is returned instead.
-/

namespace P360

/-! ### Character and string helpers (Python str semantics) -/

def lowerStr (s : String) : String := ⟨s.data.map Char.toLower⟩

def strContains (hay needle : String) : Bool := decide (needle.data <:+: hay.data)

def basename (s : String) : String :=
  ⟨(s.data.reverse.takeWhile (fun c => decide (c ≠ '\\'))).reverse⟩

def pyStrip (s : String) : String :=
  ⟨((s.data.dropWhile Char.isWhitespace).reverse.dropWhile Char.isWhitespace).reverse⟩

def afterFirstEq (s : String) : String :=
  ⟨(s.data.dropWhile (fun c => decide (c ≠ '='))).drop 1⟩

def startsWithStr (s p : String) : Bool := decide (p.data <+: s.data)

/-! ### PathMatcher: EXCLUDED_FOLDERS / LIKELY_KEYWORDS, lines 28-46 -/

def EXCLUDED_FOLDERS : List String :=
  ["$recycle.bin", "system volume information", "windows", "program files",
   "program files (x86)", "onedrive", "temp", "$windows.~bt"]

def LIKELY_KEYWORDS : List String := ["informatica", "pim", "product 360"]

/-- is_excluded_folder, lines 36-41: the lowered path's final segment is a
member of EXCLUDED_FOLDERS, or some excluded term occurs anywhere in the
lowered path. -/
def is_excluded_folder (path : String) : Bool :=
  let path_lower := lowerStr path
  let folder_name := basename path_lower
  decide (folder_name ∈ EXCLUDED_FOLDERS) ||
    EXCLUDED_FOLDERS.any (fun excluded => strContains path_lower excluded)

/-- is_likely_folder, lines 43-46. -/
def is_likely_folder (path : String) : Bool :=
  LIKELY_KEYWORDS.any (fun keyword => strContains (lowerStr path) keyword)

/-! ### InstallationScanner: find_install_folders (lines 48-69) and
autodetect_environments (lines 71-86).  The source has one body with
`elif depth > 0`; the two equations below are that body specialised to
depth = 0 and depth = n+1, which makes the recursion structural. -/

def find_install_folders (getChildren : String → List String)
    (hasMarker : String → Bool) : Nat → Bool → String → List String
  | 0, _, root_dir =>
    (getChildren root_dir).flatMap fun item =>
      let path := root_dir ++ "\\" ++ item
      if is_excluded_folder path then []
      else if hasMarker path then [path]
      else []
  | depth + 1, prioritize_likely, root_dir =>
    (getChildren root_dir).flatMap fun item =>
      let path := root_dir ++ "\\" ++ item
      if is_excluded_folder path then []
      else if hasMarker path then [path]
      else if prioritize_likely then
        (if is_likely_folder path then
          find_install_folders getChildren hasMarker depth prioritize_likely path
        else [])
      else find_install_folders getChildren hasMarker depth prioritize_likely path

/-- autodetect_environments, lines 71-86: per root, a depth-3 prioritized pass
followed by a depth-1 unprioritized pass; root_dirs is ['C:\\', userprofile]
in the source and is a parameter here. -/
def autodetect_environments (getChildren : String → List String)
    (hasMarker : String → Bool) (root_dirs : List String) : List String :=
  root_dirs.flatMap fun root_dir =>
    find_install_folders getChildren hasMarker 3 true root_dir ++
      find_install_folders getChildren hasMarker 1 false root_dir

/-! ### WorkspaceResolver: get_workspace_dir, lines 88-109.  The script
argument is the line list of pim-desktop.cmd when the file exists, none when
it does not; pathExists is os.path.exists for the extracted value. -/

def WORKSPACE_ASSIGN : String := "SET WORKSPACE_DIR="

def scan_workspace_lines (pathExists : String → Bool) : List String → Option String
  | [] => none
  | line :: rest =>
    if startsWithStr (pyStrip line) WORKSPACE_ASSIGN then
      let workspace_dir := afterFirstEq (pyStrip line)
      if pathExists workspace_dir then some workspace_dir else none
    else scan_workspace_lines pathExists rest

def get_workspace_dir (script : Option (List String))
    (pathExists : String → Bool) : Option String :=
  match script with
  | none => none
  | some lines => scan_workspace_lines pathExists lines

/-! ### Registry: infer_environment (lines 111-121) and the autodetect
registration loop of __main__ (lines 291-297).  The loop mutates the Python
dict `environments`; dictInsert is dict assignment (replace in place, or
append at the end). -/

def infer_environment (workspace_dir : String) : String :=
  let path_lower := lowerStr workspace_dir
  if strContains path_lower "prod" then "Prod"
  else if strContains path_lower "qa" || strContains path_lower "pimqa" then "QA"
  else if strContains path_lower "dev" || strContains path_lower "pimdev" then "Dev"
  else "Custom"

def dictInsert {α : Type} (d : List (String × α)) (k : String) (v : α) :
    List (String × α) :=
  if d.any (fun e => e.1 == k) then
    d.map (fun e => if e.1 == k then (k, v) else e)
  else d ++ [(k, v)]

def lookupEnv {α : Type} (d : List (String × α)) (k : String) : Option α :=
  (d.find? (fun e => e.1 == k)).map (fun e => e.2)

def autoRegister (get_ws : String → Option String)
    (install_folders : List String) : List (String × String) :=
  install_folders.foldl (fun environments folder =>
    match get_ws folder with
    | some workspace_dir =>
        dictInsert environments (infer_environment workspace_dir) workspace_dir
    | none => environments) []

/-- The body of the registration loop as a named function, for fold lemmas. -/
def registerStep (get_ws : String → Option String)
    (environments : List (String × String)) (folder : String) : List (String × String) :=
  match get_ws folder with
  | some workspace_dir =>
      dictInsert environments (infer_environment workspace_dir) workspace_dir
  | none => environments

/-- Membership in the four fixed category names infer_environment can emit. -/
def catOk (k : String) : Bool :=
  k == "Prod" || k == "QA" || k == "Dev" || k == "Custom"

/-! ### Filesystem state for backup / restore / update_dates -/

abbrev Path := List String

structure FS where
  files : List (Path × String)
  dirs : List Path
deriving DecidableEq

def FS.lookup (fs : FS) (p : Path) : Option String :=
  (fs.files.find? (fun e => decide (e.1 = p))).map (fun e => e.2)

def FS.existsFile (fs : FS) (p : Path) : Bool := (fs.lookup p).isSome

def FS.existsDir (fs : FS) (p : Path) : Bool := decide (p ∈ fs.dirs)

/-- os.path.exists: a regular file or a directory is present at the path. -/
def FS.pathExists (fs : FS) (p : Path) : Bool := fs.existsFile p || fs.existsDir p

/-- Writing file content at a path (the effect of shutil.copy2 at its
destination): replaces any previous content.  files is an association map in
which the most recent binding wins (lookup and existsFile read the first
match), so consing the new binding is dict assignment. -/
def FS.writeFile (fs : FS) (p : Path) (v : String) : FS :=
  { fs with files := (p, v) :: fs.files }

def FS.addDir (fs : FS) (p : Path) : FS :=
  if p ∈ fs.dirs then fs else { fs with dirs := p :: fs.dirs }

/-- The nonempty prefixes of a segment path, shortest first. -/
def pathPrefixes (p : Path) : List Path :=
  (List.range p.length).map (fun i => p.take (i + 1))

/-- os.makedirs(p, exist_ok=True): create the directory and all its missing
ancestors; no error and no change for those already present. -/
def FS.makedirs (fs : FS) (p : Path) : FS :=
  (pathPrefixes p).foldl FS.addDir fs

/-- shutil.copy2 src dst for a regular-file src (the code always guards the
call with an existence check on src). -/
def FS.copy2 (fs : FS) (src dst : Path) : FS :=
  match fs.lookup src with
  | some v => fs.writeFile dst v
  | none => fs

/-- The names of the immediate subdirectories of d
(os.listdir filtered by os.path.isdir). -/
def FS.childDirs (fs : FS) (d : Path) : List String :=
  fs.dirs.filterMap (fun q => if q.dropLast = d then q.getLast? else none)

/-- archive_folder, line 18: expandvars('%userprofile%')/Desktop/Product 360
layout backup, with the profile fixed to C:/Users/user for this model. -/
def archive_folder : Path :=
  ["C:", "Users", "user", "Desktop", "Product 360 layout backup"]

/-- source_files_relative, lines 21-25. -/
def source_files_relative : List (String × Path) :=
  [("org.eclipse.ui.workbench.prefs",
    [".metadata", ".plugins", "org.eclipse.core.runtime", ".settings",
     "org.eclipse.ui.workbench.prefs"]),
   ("workbench.xmi",
    [".metadata", ".plugins", "org.eclipse.e4.workbench", "workbench.xmi"]),
   ("savedTableConfigs.xml",
    [".metadata", ".plugins", "com.heiler.ppm.std.ui", "savedTableConfigs.xml"])]

/-! ### backup_files, lines 136-161.  today is date.today().isoformat(); the
trailing update_dates / messagebox calls touch only the GUI.  The loop body
for one (filename, rel_path) pair is backupStep. -/

inductive BackupResult
  | inputError
  | keyError
  | ok
deriving DecidableEq

def backupStep (source_base dated_folder : Path) (f : FS) (fr : String × Path) : FS :=
  let source_path := source_base ++ fr.2
  if f.pathExists source_path then f.copy2 source_path (dated_folder ++ [fr.1])
  else f

def backup_files (env : String) (environments : List (String × Path))
    (today : String) (fs : FS) : FS × BackupResult :=
  if env = "" then (fs, BackupResult.inputError)
  else
    match lookupEnv environments env with
    | none => (fs, BackupResult.keyError)
    | some source_base =>
      let dated_folder := archive_folder ++ [env, today]
      let fs1 := fs.makedirs dated_folder
      (source_files_relative.foldl (backupStep source_base dated_folder) fs1,
        BackupResult.ok)

/-! ### restore_files, lines 163-189.  The loop body for one
(filename, rel_path) pair is restoreStep: it creates the destination's parent
directories and copies the snapshot file over the live file, with no
confirmation of any kind in the source. -/

inductive RestoreResult
  | inputError
  | keyError
  | snapshotNotFound
  | ok
deriving DecidableEq

def restoreStep (source_base restore_folder : Path) (f : FS) (fr : String × Path) : FS :=
  let dest_path := source_base ++ fr.2
  let source_file := restore_folder ++ [fr.1]
  if f.pathExists source_file then
    (f.makedirs dest_path.dropLast).copy2 source_file dest_path
  else f

def restore_files (env selected_date : String)
    (environments : List (String × Path)) (fs : FS) : FS × RestoreResult :=
  if env = "" ∨ selected_date = "" then (fs, RestoreResult.inputError)
  else
    match lookupEnv environments env with
    | none => (fs, RestoreResult.keyError)
    | some source_base =>
      let restore_folder := archive_folder ++ [env, selected_date]
      if !fs.pathExists restore_folder then (fs, RestoreResult.snapshotNotFound)
      else
        (source_files_relative.foldl (restoreStep source_base restore_folder) fs,
          RestoreResult.ok)

/-! ### update_dates, lines 215-232: the dropdown value list.  Python's
list.sort(reverse=True) on strings is descending code-point-lexicographic
order, modelled by an insertion sort with lexLe followed by reverse. -/

def lexLe : List Char → List Char → Bool
  | [], _ => true
  | _ :: _, [] => false
  | a :: as, b :: bs =>
    if a.toNat < b.toNat then true
    else if b.toNat < a.toNat then false
    else lexLe as bs

def strLe (a b : String) : Bool := lexLe a.data b.data

def sortDescending (l : List String) : List String :=
  (List.insertionSort (fun a b => strLe a b = true) l).reverse

def update_dates_values (env : String) (fs : FS) : List String :=
  if env = "" then []
  else
    let env_archive := archive_folder ++ [env]
    if fs.pathExists env_archive then sortDescending (fs.childDirs env_archive)
    else []

/-! ### Definitions written from the specification text, for comparison with
the embedded source functions -/

/-- The spec's isExcluded: the path's final segment, compared
case-insensitively, is a member of the exclusion set, or some exclusion term
occurs anywhere in the path (case-insensitively). -/
def isExcludedSpec (path : String) : Bool :=
  decide (lowerStr (basename path) ∈ EXCLUDED_FOLDERS) ||
    EXCLUDED_FOLDERS.any (fun excluded => strContains (lowerStr path) excluded)

/-- The amended extractWorkspace: the value after the first '=' of the first
line whose stripped content starts with the assignment prefix, with no
further trimming and no environment-variable expansion; None when the script
is absent, no such line exists, or the value does not exist on disk. -/
def extractWorkspaceAmended (script : Option (List String))
    (pathExists : String → Bool) : Option String :=
  match script with
  | none => none
  | some lines =>
    match lines.find? (fun line => startsWithStr (pyStrip line) WORKSPACE_ASSIGN) with
    | none => none
    | some line =>
      let workspace_dir := afterFirstEq (pyStrip line)
      if pathExists workspace_dir then some workspace_dir else none

/-- p names a directory strictly beneath d: its path extends d's path by a
backslash and at least the empty remainder. -/
def isBeneath (d p : String) : Prop := ∃ rest, p.data = d.data ++ '\\' :: rest

/-! ### Concrete fixtures used by counterexamples and witnesses -/

def treeChildren (p : String) : List String :=
  if p = "C:" then ["foo", "pimdir", "Windows"]
  else if p = "C:\\foo" then ["bar"]
  else if p = "C:\\foo\\bar" then ["baz"]
  else []

def treeMarker (p : String) : Bool :=
  p = "C:\\foo\\bar\\baz" || p = "C:\\pimdir"

def gTwoProd (f : String) : Option String :=
  if f = "C:\\A" then some "C:\\prodA"
  else if f = "C:\\B" then some "C:\\prodB"
  else none

def wsC : Path := ["C:", "ws"]

def envsC : List (String × Path) := [("Prod", wsC)]

def snapC : Path := archive_folder ++ ["Prod", "2024-01-01"]

def dest0 : Path :=
  wsC ++ [".metadata", ".plugins", "org.eclipse.core.runtime", ".settings",
    "org.eclipse.ui.workbench.prefs"]

def dest1 : Path :=
  wsC ++ [".metadata", ".plugins", "org.eclipse.e4.workbench", "workbench.xmi"]

def dest2 : Path :=
  wsC ++ [".metadata", ".plugins", "com.heiler.ppm.std.ui", "savedTableConfigs.xml"]

def snap0 : Path := snapC ++ ["org.eclipse.ui.workbench.prefs"]

def snap1 : Path := snapC ++ ["workbench.xmi"]

def snap2 : Path := snapC ++ ["savedTableConfigs.xml"]

/-- A workspace whose three destination files all exist, together with a
complete snapshot of 2024-01-01. -/
def fsC1 : FS :=
  { files := [(dest0, "old0"), (dest1, "old1"), (dest2, "old2"),
              (snap0, "new0"), (snap1, "new1"), (snap2, "new2")],
    dirs := [snapC] }

/-- An archive holding three dated snapshots of the Prod environment. -/
def fsW : FS :=
  { files := [],
    dirs := [archive_folder ++ ["Prod"],
             archive_folder ++ ["Prod", "2024-01-01"],
             archive_folder ++ ["Prod", "2024-03-05"],
             archive_folder ++ ["Prod", "2024-02-10"]] }

def fsB0 : FS := { files := [(dest0, "v0"), (dest1, "v1")], dirs := [] }

def fsB1 : FS := (backup_files "Prod" envsC "2024-05-05" fsB0).1

def fsB1m : FS := fsB1.writeFile dest0 "EDITED"

def fsB2 : FS := (backup_files "Prod" envsC "2024-05-05" fsB1m).1

end P360

namespace P360

/-! ### General lemmas about the string helpers -/

theorem suffix_isInf {l₁ l₂ : List Char} (h : l₁ <:+ l₂) : l₁ <:+: l₂ := by
  obtain ⟨t, ht⟩ := h
  exact ⟨t, [], by simp [ht]⟩

theorem pref_isInf {l₁ l₂ : List Char} (h : l₁ <+: l₂) : l₁ <:+: l₂ := by
  obtain ⟨t, ht⟩ := h
  exact ⟨[], t, by simp [ht]⟩

theorem inf_of_inf_pref {l₁ l₂ l₃ : List Char} (h : l₁ <:+: l₂) (h2 : l₂ <+: l₃) :
    l₁ <:+: l₃ :=
  h.trans (pref_isInf h2)

theorem basename_suffix (s : String) : (basename s).data <:+ s.data := by
  have h : s.data.reverse.takeWhile (fun c => decide (c ≠ '\\')) <+: s.data.reverse :=
    List.takeWhile_prefix _
  have h2 := List.reverse_suffix.mpr h
  rw [List.reverse_reverse] at h2
  exact h2

theorem strContains_iff {hay needle : String} :
    strContains hay needle = true ↔ needle.data <:+: hay.data := by
  simp [strContains]

theorem any_term_of_suffix_mem {path e : String} (he : e ∈ EXCLUDED_FOLDERS)
    (h : e.data <:+ (lowerStr path).data) :
    (EXCLUDED_FOLDERS.any fun excluded => strContains (lowerStr path) excluded) = true := by
  rw [List.any_eq_true]
  exact ⟨e, he, strContains_iff.mpr (suffix_isInf h)⟩

/-! ### Lemmas about exclusion and the scanner -/

theorem excluded_beneath {d p : String} (hd : is_excluded_folder d = true)
    (h : isBeneath d p) : is_excluded_folder p = true := by
  obtain ⟨rest, hrest⟩ := h
  have hterm : ∃ e ∈ EXCLUDED_FOLDERS, e.data <:+: (lowerStr d).data := by
    simp only [is_excluded_folder, Bool.or_eq_true, decide_eq_true_eq,
      List.any_eq_true] at hd
    rcases hd with hmem | ⟨e, he, hinf⟩
    · exact ⟨basename (lowerStr d), hmem, suffix_isInf (basename_suffix (lowerStr d))⟩
    · exact ⟨e, he, strContains_iff.mp hinf⟩
  obtain ⟨e, he, hinf⟩ := hterm
  have hpref : (lowerStr d).data <+: (lowerStr p).data := by
    refine ⟨('\\' :: rest).map Char.toLower, ?_⟩
    simp [lowerStr, hrest]
  have hc : e.data <:+: (lowerStr p).data := inf_of_inf_pref hinf hpref
  simp only [is_excluded_folder, Bool.or_eq_true, List.any_eq_true]
  exact Or.inr ⟨e, he, strContains_iff.mpr hc⟩

theorem not_excluded_of_mem_scan (gc : String → List String) (hm : String → Bool) :
    ∀ (depth : Nat) (pr : Bool) (root c : String),
      c ∈ find_install_folders gc hm depth pr root → is_excluded_folder c = false := by
  intro depth
  induction depth with
  | zero =>
    intro pr root c hc
    simp only [find_install_folders, List.mem_flatMap] at hc
    obtain ⟨item, _, hc⟩ := hc
    by_cases hex : is_excluded_folder (root ++ "\\" ++ item) = true
    · simp [hex] at hc
    · rw [Bool.not_eq_true] at hex
      by_cases hmk : hm (root ++ "\\" ++ item) = true
      · simp only [hex, hmk, if_false, if_true, Bool.false_eq_true, List.mem_singleton] at hc
        rw [hc]; exact hex
      · simp [hex, hmk] at hc
  | succ d ih =>
    intro pr root c hc
    simp only [find_install_folders, List.mem_flatMap] at hc
    obtain ⟨item, _, hc⟩ := hc
    by_cases hex : is_excluded_folder (root ++ "\\" ++ item) = true
    · simp [hex] at hc
    · rw [Bool.not_eq_true] at hex
      by_cases hmk : hm (root ++ "\\" ++ item) = true
      · simp only [hex, hmk, if_false, if_true, Bool.false_eq_true, List.mem_singleton] at hc
        rw [hc]; exact hex
      · simp only [hex, hmk, if_false, Bool.false_eq_true] at hc
        cases pr with
        | true =>
          simp only [if_true] at hc
          by_cases hlik : is_likely_folder (root ++ "\\" ++ item) = true
          · simp only [hlik, if_true] at hc
            exact ih true _ c hc
          · simp [hlik] at hc
        | false =>
          simp only [Bool.false_eq_true, if_false] at hc
          exact ih false _ c hc

/-! ### Lemmas about the registry -/

theorem infer_environment_mem (ws : String) :
    (infer_environment ws == "Prod" || infer_environment ws == "QA" ||
      infer_environment ws == "Dev" || infer_environment ws == "Custom") = true := by
  unfold infer_environment
  by_cases h1 : strContains (lowerStr ws) "prod" = true
  · simp [h1]
  · by_cases h2 : (strContains (lowerStr ws) "qa" || strContains (lowerStr ws) "pimqa") = true
    · simp [h1, h2]
    · by_cases h3 : (strContains (lowerStr ws) "dev" || strContains (lowerStr ws) "pimdev") = true
      · simp [h1, h2, h3]
      · simp [h1, h2, h3]

theorem map_fst_replace {α : Type} (k : String) (v : α) :
    ∀ d : List (String × α),
      ((d.map fun e => if e.1 == k then (k, v) else e).map Prod.fst) = d.map Prod.fst := by
  intro d
  induction d with
  | nil => rfl
  | cons e t ih =>
    simp only [List.map_cons]
    by_cases he : (e.1 == k) = true
    · have heq : e.1 = k := by simpa using he
      rw [if_pos he]
      simp only [List.map_cons] at ih ⊢
      rw [ih]
      simp [heq]
    · rw [if_neg he]
      simp only [List.map_cons] at ih ⊢
      rw [ih]

theorem dictInsert_keys {α : Type} (d : List (String × α)) (k : String) (v : α) :
    (dictInsert d k v).map Prod.fst = d.map Prod.fst ∨
    ((dictInsert d k v).map Prod.fst = d.map Prod.fst ++ [k] ∧ k ∉ d.map Prod.fst) := by
  unfold dictInsert
  by_cases h : d.any (fun e => e.1 == k) = true
  · left
    simp only [h, if_true]
    exact map_fst_replace k v d
  · right
    refine ⟨by simp [h], ?_⟩
    intro hk
    apply h
    rw [List.any_eq_true]
    obtain ⟨e, he, hfst⟩ := List.mem_map.mp hk
    exact ⟨e, he, by simp [hfst]⟩

theorem autoRegister_eq_foldl (get_ws : String → Option String) (folders : List String) :
    autoRegister get_ws folders = folders.foldl (registerStep get_ws) [] := rfl

theorem autoRegister_aux (get_ws : String → Option String) :
    ∀ (folders : List String) (acc : List (String × String)),
      (acc.map Prod.fst).Nodup →
      (acc.map Prod.fst).all catOk = true →
      ((folders.foldl (registerStep get_ws) acc).map Prod.fst).Nodup ∧
      ((folders.foldl (registerStep get_ws) acc).map Prod.fst).all catOk = true := by
  intro folders
  induction folders with
  | nil => intro acc h1 h2; exact ⟨h1, h2⟩
  | cons f t ih =>
    intro acc h1 h2
    rw [List.foldl_cons]
    cases hg : get_ws f with
    | none =>
      have hs : registerStep get_ws acc f = acc := by simp [registerStep, hg]
      rw [hs]
      exact ih acc h1 h2
    | some ws =>
      have hstep : registerStep get_ws acc f = dictInsert acc (infer_environment ws) ws := by
        simp [registerStep, hg]
      rw [hstep]
      rcases dictInsert_keys acc (infer_environment ws) ws with hkeys | ⟨hkeys, hnot⟩
      · exact ih _ (by rw [hkeys]; exact h1) (by rw [hkeys]; exact h2)
      · refine ih _ ?_ ?_
        · rw [hkeys]
          simp [List.nodup_append, h1, hnot]
        · rw [hkeys, List.all_append]
          simp [h2, catOk, infer_environment_mem]

end P360

namespace P360

/-! ### Lemmas about the workspace resolver -/

theorem scan_eq_find (pe : String → Bool) :
    ∀ lines : List String,
      scan_workspace_lines pe lines =
        match lines.find? (fun line => startsWithStr (pyStrip line) WORKSPACE_ASSIGN) with
        | none => none
        | some line =>
          if pe (afterFirstEq (pyStrip line)) then some (afterFirstEq (pyStrip line))
          else none := by
  intro lines
  induction lines with
  | nil => rfl
  | cons l rest ih =>
    by_cases h : startsWithStr (pyStrip l) WORKSPACE_ASSIGN = true
    · simp [scan_workspace_lines, List.find?_cons, h]
    · have hfind : List.find? (fun line => startsWithStr (pyStrip line) WORKSPACE_ASSIGN)
          (l :: rest) =
          List.find? (fun line => startsWithStr (pyStrip line) WORKSPACE_ASSIGN) rest :=
        List.find?_cons_of_neg _ h
      simp only [scan_workspace_lines, h, Bool.false_eq_true, if_false, hfind]
      exact ih

/-! ### Lemmas about the filesystem state -/

theorem FS.lookup_writeFile_self (fs : FS) (p : Path) (v : String) :
    (fs.writeFile p v).lookup p = some v := by
  unfold FS.writeFile FS.lookup
  rw [List.find?_cons_of_pos _ (by simp)]
  rfl

theorem FS.lookup_writeFile_ne (fs : FS) {p q : Path} (v : String) (h : q ≠ p) :
    (fs.writeFile p v).lookup q = fs.lookup q := by
  unfold FS.writeFile FS.lookup
  rw [List.find?_cons_of_neg _ (by simp; exact fun hh => h hh.symm)]

theorem FS.writeFile_dirs (fs : FS) (p : Path) (v : String) :
    (fs.writeFile p v).dirs = fs.dirs := rfl

theorem FS.addDir_files (fs : FS) (p : Path) : (fs.addDir p).files = fs.files := by
  unfold FS.addDir; split <;> rfl

theorem foldl_addDir_files :
    ∀ (l : List Path) (fs : FS), (l.foldl FS.addDir fs).files = fs.files := by
  intro l
  induction l with
  | nil => intro fs; rfl
  | cons p t ih => intro fs; rw [List.foldl_cons, ih, FS.addDir_files]

theorem FS.makedirs_files (fs : FS) (p : Path) : (fs.makedirs p).files = fs.files :=
  foldl_addDir_files _ _

theorem FS.makedirs_lookup (fs : FS) (p q : Path) :
    (fs.makedirs p).lookup q = fs.lookup q := by
  unfold FS.lookup
  rw [FS.makedirs_files]

theorem mem_foldl_addDir :
    ∀ (l : List Path) (fs : FS) (q : Path),
      q ∈ (l.foldl FS.addDir fs).dirs ↔ q ∈ fs.dirs ∨ q ∈ l := by
  intro l
  induction l with
  | nil => intro fs q; simp
  | cons p t ih =>
    intro fs q
    rw [List.foldl_cons, ih]
    unfold FS.addDir
    by_cases hp : p ∈ fs.dirs
    · rw [if_pos hp]
      simp only [List.mem_cons]
      constructor
      · rintro (h | h)
        · exact Or.inl h
        · exact Or.inr (Or.inr h)
      · rintro (h | rfl | h)
        · exact Or.inl h
        · exact Or.inl hp
        · exact Or.inr h
    · rw [if_neg hp]
      dsimp only
      simp only [List.mem_cons]
      tauto

theorem foldl_addDir_noop :
    ∀ (l : List Path) (fs : FS), (∀ q ∈ l, q ∈ fs.dirs) → l.foldl FS.addDir fs = fs := by
  intro l
  induction l with
  | nil => intro fs _; rfl
  | cons p t ih =>
    intro fs h
    rw [List.foldl_cons]
    have hp : fs.addDir p = fs := by
      unfold FS.addDir
      rw [if_pos (h p (List.mem_cons_self p t))]
    rw [hp]
    exact ih fs (fun q hq => h q (List.mem_cons_of_mem _ hq))

theorem FS.makedirs_noop (fs : FS) (p : Path)
    (h : ∀ q ∈ pathPrefixes p, q ∈ fs.dirs) : fs.makedirs p = fs :=
  foldl_addDir_noop _ _ h

theorem FS.copy2_dirs (fs : FS) (src dst : Path) : (fs.copy2 src dst).dirs = fs.dirs := by
  unfold FS.copy2
  cases fs.lookup src <;> rfl

theorem FS.copy2_lookup_ne (fs : FS) (src : Path) {dst q : Path} (h : q ≠ dst) :
    (fs.copy2 src dst).lookup q = fs.lookup q := by
  unfold FS.copy2
  cases hl : fs.lookup src with
  | none => rfl
  | some v => exact FS.lookup_writeFile_ne fs v h

theorem FS.copy2_writes (fs : FS) {src dst : Path} {v : String}
    (h : fs.lookup src = some v) : (fs.copy2 src dst).lookup dst = some v := by
  unfold FS.copy2
  rw [h]
  exact FS.lookup_writeFile_self fs dst v

theorem FS.pathExists_of_lookup (fs : FS) {p : Path} {v : String}
    (h : fs.lookup p = some v) : fs.pathExists p = true := by
  simp [FS.pathExists, FS.existsFile, h]

theorem backupStep_dirs (b d : Path) (f : FS) (fr : String × Path) :
    (backupStep b d f fr).dirs = f.dirs := by
  unfold backupStep
  dsimp only
  split
  · exact FS.copy2_dirs f _ _
  · rfl

theorem backupStep_lookup_ne (b d : Path) (f : FS) (fr : String × Path) {q : Path}
    (h : q ≠ d ++ [fr.1]) : (backupStep b d f fr).lookup q = f.lookup q := by
  unfold backupStep
  dsimp only
  split
  · exact FS.copy2_lookup_ne f _ h
  · rfl

theorem backupStep_writes (b d : Path) (f : FS) (fr : String × Path) {v : String}
    (h : f.lookup (b ++ fr.2) = some v) :
    (backupStep b d f fr).lookup (d ++ [fr.1]) = some v := by
  unfold backupStep
  dsimp only
  rw [if_pos (FS.pathExists_of_lookup f h)]
  exact FS.copy2_writes f h

theorem foldl_backupStep_dirs (b d : Path) :
    ∀ (l : List (String × Path)) (f : FS), (l.foldl (backupStep b d) f).dirs = f.dirs := by
  intro l
  induction l with
  | nil => intro f; rfl
  | cons fr t ih => intro f; rw [List.foldl_cons, ih, backupStep_dirs]

theorem self_mem_pathPrefixes (p : Path) (h : p ≠ []) : p ∈ pathPrefixes p := by
  unfold pathPrefixes
  rw [List.mem_map]
  have hlen : 0 < p.length := List.length_pos.mpr h
  refine ⟨p.length - 1, ?_, ?_⟩
  · rw [List.mem_range]; omega
  · have heq : p.length - 1 + 1 = p.length := by omega
    rw [heq, List.take_length]

theorem eq_of_mem_pathPrefixes_of_length {q p : Path} (hq : q ∈ pathPrefixes p)
    (hlen : q.length = p.length) : q = p := by
  unfold pathPrefixes at hq
  rw [List.mem_map] at hq
  obtain ⟨i, hi, rfl⟩ := hq
  rw [List.mem_range] at hi
  have : p.length ≤ i + 1 := by
    rw [List.length_take] at hlen
    omega
  exact List.take_of_length_le this

theorem last_ne {l : Path} {a b : String} (h : a ≠ b) : l ++ [a] ≠ l ++ [b] :=
  fun he => h (by simpa using he)

/-! ### Lemmas about the descending sort -/

theorem lexLe_total : ∀ l m : List Char, lexLe l m = true ∨ lexLe m l = true := by
  intro l
  induction l with
  | nil => intro m; left; rfl
  | cons a as ih =>
    intro m
    cases m with
    | nil => right; rfl
    | cons b bs =>
      by_cases hab : a.toNat < b.toNat
      · left; simp [lexLe, hab]
      · by_cases hba : b.toNat < a.toNat
        · right; simp [lexLe, hba]
        · rcases ih bs with h | h
          · left; simp [lexLe, hab, hba, h]
          · right; simp [lexLe, hab, hba, h]

theorem lexLe_trans :
    ∀ l m n : List Char, lexLe l m = true → lexLe m n = true → lexLe l n = true := by
  intro l
  induction l with
  | nil => intro m n _ _; rfl
  | cons a as ih =>
    intro m n h1 h2
    cases m with
    | nil => simp [lexLe] at h1
    | cons b bs =>
      cases n with
      | nil => simp [lexLe] at h2
      | cons c cs =>
        simp only [lexLe] at h1 h2 ⊢
        split at h1
        · split
          · rfl
          · split at h2
            · omega
            · split at h2
              · simp at h2
              · omega
        · split at h1
          · simp at h1
          · split at h2
            · split
              · rfl
              · split
                · omega
                · omega
            · split at h2
              · simp at h2
              · split
                · rfl
                · split
                  · omega
                  · exact ih bs cs h1 h2

instance strLeRel_total : IsTotal String (fun a b => strLe a b = true) :=
  ⟨fun a b => lexLe_total a.data b.data⟩

instance strLeRel_trans : IsTrans String (fun a b => strLe a b = true) :=
  ⟨fun a b c => lexLe_trans a.data b.data c.data⟩

theorem sortDescending_perm (l : List String) : (sortDescending l).Perm l :=
  (List.reverse_perm _).trans (List.perm_insertionSort _ l)

theorem sortDescending_sorted (l : List String) :
    (sortDescending l).Pairwise (fun a b => strLe b a = true) := by
  rw [sortDescending, List.pairwise_reverse]
  exact List.sorted_insertionSort _ l

end P360

namespace P360

/-! ### Claim C1 -/

/-- Claim C1 (amended): restore_files performs no overwrite confirmation of
any kind — its inputs contain no confirmation decision — and whenever the
dated snapshot directory exists and the inputs are valid it proceeds
unconditionally to completion, copying snapshot files over the live
workspace regardless of whether the destination files already exist. -/
theorem restore_has_no_overwrite_confirmation
    (env selected_date : String) (environments : List (String × Path))
    (source_base : Path) (fs : FS)
    (henv : env ≠ "") (hdate : selected_date ≠ "")
    (hlook : lookupEnv environments env = some source_base)
    (hsnap : fs.pathExists (archive_folder ++ [env, selected_date]) = true) :
    (restore_files env selected_date environments fs).2 = RestoreResult.ok := by
  simp [restore_files, henv, hdate, hlook, hsnap]

theorem restore_has_no_overwrite_confirmation_witness :
    (restore_files "Prod" "2024-01-01" envsC fsC1).2 = RestoreResult.ok :=
  restore_has_no_overwrite_confirmation "Prod" "2024-01-01" envsC wsC fsC1
    (by decide) (by decide) (by decide) (by decide)

/-- Claim C1 counterexample: with all three destination files present in the
workspace, restore_files (which has no confirmation input that could be
declined) completes and overwrites them: the post-state differs from the
pre-state at every destination, refuting "the restore aborts and every
destination file is byte-identical to its pre-call state". -/
theorem restore_overwrites_existing_files_counterexample :
    (fsC1.existsFile dest0 = true ∧ fsC1.existsFile dest1 = true ∧
      fsC1.existsFile dest2 = true) ∧
    fsC1.lookup dest0 = some "old0" ∧
    (restore_files "Prod" "2024-01-01" envsC fsC1).2 = RestoreResult.ok ∧
    (restore_files "Prod" "2024-01-01" envsC fsC1).1.lookup dest0 = some "new0" ∧
    (restore_files "Prod" "2024-01-01" envsC fsC1).1.lookup dest1 = some "new1" ∧
    (restore_files "Prod" "2024-01-01" envsC fsC1).1.lookup dest2 = some "new2" ∧
    ("new0" : String) ≠ "old0" := by
  decide

/-! ### Claim C2 -/

/-- Claim C2 (amended): the registry built by the autodetect loop is keyed by
the four category names only; its keys are pairwise distinct (at most one
entry per category), so no suffixed backup names (name_1, name_2, ...) are
ever created; a colliding registration replaces the earlier entry rather
than adding a second one. -/
theorem autoRegister_keys_unique_categories (get_ws : String → Option String)
    (folders : List String) :
    ((autoRegister get_ws folders).map Prod.fst).Nodup ∧
    ((autoRegister get_ws folders).map Prod.fst).all catOk = true := by
  rw [autoRegister_eq_foldl]
  exact autoRegister_aux get_ws folders [] (by simp) (by simp)

/-- Claim C2 counterexample: registering two installations whose workspaces
both classify as Prod yields one entry, not two; the first workspace is
replaced and no suffixed name exists. -/
theorem backup_name_suffixing_counterexample :
    autoRegister gTwoProd ["C:\\A", "C:\\B"] = [("Prod", "C:\\prodB")] ∧
    (autoRegister gTwoProd ["C:\\A", "C:\\B"]).length = 1 := by
  decide

/-! ### Claim C3 -/

/-- Claim C3 (amended): with prioritization enabled the scanner only descends
into directories satisfying is_likely_folder, so it finds a subset of what
the unprioritized scan finds at the same depth (the marker test at each
visited child is unaffected); the likely-folder test can therefore suppress
candidates, not merely reorder them. -/
theorem prioritized_scan_finds_subset (getChildren : String → List String)
    (hasMarker : String → Bool) :
    ∀ (depth : Nat) (root p : String),
      p ∈ find_install_folders getChildren hasMarker depth true root →
      p ∈ find_install_folders getChildren hasMarker depth false root := by
  intro depth
  induction depth with
  | zero => intro root p hp; exact hp
  | succ d ih =>
    intro root p hp
    rw [find_install_folders, List.mem_flatMap] at hp ⊢
    obtain ⟨item, hitem, hp⟩ := hp
    refine ⟨item, hitem, ?_⟩
    by_cases hex : is_excluded_folder (root ++ "\\" ++ item) = true
    · simp [hex] at hp
    · rw [Bool.not_eq_true] at hex
      by_cases hmk : hasMarker (root ++ "\\" ++ item) = true
      · simpa [hex, hmk] using hp
      · simp only [hex, hmk, if_false, if_true, Bool.false_eq_true] at hp ⊢
        by_cases hlik : is_likely_folder (root ++ "\\" ++ item) = true
        · simp only [hlik, if_true] at hp
          exact ih _ p hp
        · simp [hlik] at hp

theorem prioritized_scan_finds_subset_witness :
    "C:\\pimdir" ∈ find_install_folders treeChildren treeMarker 3 false "C:" :=
  prioritized_scan_finds_subset treeChildren treeMarker 3 "C:" "C:\\pimdir" (by decide)

/-- Claim C3 counterexample: an installation nested two levels below a
non-likely directory is found when the likely test is disabled but not when
it is enabled, and the full autodetect pass (depth-3 prioritized plus
depth-1 unprioritized) also misses it: the test changes what is found, not
only the order. -/
theorem likely_filter_prunes_counterexample :
    "C:\\foo\\bar\\baz" ∈ find_install_folders treeChildren treeMarker 3 false "C:" ∧
    "C:\\foo\\bar\\baz" ∉ find_install_folders treeChildren treeMarker 3 true "C:" ∧
    "C:\\foo\\bar\\baz" ∉ autodetect_environments treeChildren treeMarker ["C:"] := by
  decide

/-! ### Claim C4 -/

/-- Claim C4 (amended): get_workspace_dir returns the substring after the
first '=' of the stripped first matching line, with no separate trimming of
that value and no environment-variable expansion; it returns none when the
script is absent, when no stripped line starts with the assignment prefix,
or when the extracted value does not exist on disk. -/
theorem get_workspace_dir_eq_amended_spec (script : Option (List String))
    (pe : String → Bool) :
    get_workspace_dir script pe = extractWorkspaceAmended script pe := by
  cases script with
  | none => rfl
  | some lines =>
    show scan_workspace_lines pe lines = _
    rw [scan_eq_find]
    rfl

/-- Claim C4 counterexample: a value written with a leading space after '='
is returned untrimmed (it differs from its own strip), and a value that is
an environment-variable reference is returned literally, unexpanded — the
returned string still contains the '%' reference. -/
theorem workspace_value_not_trimmed_not_expanded_counterexample :
    get_workspace_dir (some ["rem launcher", "  SET WORKSPACE_DIR= C:\\ws  "])
      (fun _ => true) = some " C:\\ws" ∧
    pyStrip " C:\\ws" = "C:\\ws" ∧ (" C:\\ws" : String) ≠ "C:\\ws" ∧
    get_workspace_dir (some ["SET WORKSPACE_DIR=%P%"]) (fun _ => true) = some "%P%" ∧
    strContains "%P%" "%" = true := by
  decide

/-! ### Claim C5 -/

/-- Claim C5: the scanner checks is_excluded_folder on each child before the
marker test and before descending, so no candidate it reports is an excluded
directory or lies beneath one. -/
theorem excluded_dir_never_scanned (getChildren : String → List String)
    (hasMarker : String → Bool) (depth : Nat) (pr : Bool) (root d c : String)
    (hd : is_excluded_folder d = true)
    (hc : c ∈ find_install_folders getChildren hasMarker depth pr root) :
    ¬ (c = d ∨ isBeneath d c) := by
  intro hcase
  have hne := not_excluded_of_mem_scan getChildren hasMarker depth pr root c hc
  rcases hcase with rfl | hben
  · rw [hd] at hne; cases hne
  · rw [excluded_beneath hd hben] at hne; cases hne

theorem excluded_dir_never_scanned_witness :
    is_excluded_folder "C:\\Windows" = true ∧
    "C:\\pimdir" ∈ find_install_folders treeChildren treeMarker 3 true "C:" ∧
    ¬ ("C:\\pimdir" = "C:\\Windows" ∨ isBeneath "C:\\Windows" "C:\\pimdir") :=
  ⟨by decide, by decide,
    excluded_dir_never_scanned treeChildren treeMarker 3 true "C:" "C:\\Windows"
      "C:\\pimdir" (by decide) (by decide)⟩

/-! ### Claim C6 -/

/-- Claim C6: is_excluded_folder returns true exactly when the path's final
segment case-insensitively equals a member of the fixed exclusion set or
some exclusion term occurs case-insensitively anywhere in the path, and
false otherwise. -/
theorem is_excluded_folder_matches_spec (path : String) :
    is_excluded_folder path = isExcludedSpec path := by
  by_cases hB : (EXCLUDED_FOLDERS.any fun excluded => strContains (lowerStr path) excluded) = true
  · simp [is_excluded_folder, isExcludedSpec, hB]
  · have hA : ¬ basename (lowerStr path) ∈ EXCLUDED_FOLDERS := by
      intro hmem
      exact hB (any_term_of_suffix_mem hmem (basename_suffix (lowerStr path)))
    have hA2 : ¬ lowerStr (basename path) ∈ EXCLUDED_FOLDERS := by
      intro hmem
      refine hB (any_term_of_suffix_mem hmem ?_)
      have h := List.IsSuffix.map Char.toLower (basename_suffix path)
      simpa [lowerStr] using h
    simp [is_excluded_folder, isExcludedSpec, hA, hA2, hB]

/-! ### Claim C7 -/

/-- Claim C7: when nothing exists at the dated snapshot path, restore_files
reports the missing backup (SnapshotNotFound) and returns the filesystem
completely unchanged: no copy is attempted. -/
theorem restore_missing_snapshot_fails_untouched
    (env selected_date : String) (environments : List (String × Path))
    (source_base : Path) (fs : FS)
    (henv : env ≠ "") (hdate : selected_date ≠ "")
    (hlook : lookupEnv environments env = some source_base)
    (habs : fs.pathExists (archive_folder ++ [env, selected_date]) = false) :
    restore_files env selected_date environments fs = (fs, RestoreResult.snapshotNotFound) := by
  simp [restore_files, henv, hdate, hlook, habs]

theorem restore_missing_snapshot_fails_untouched_witness :
    restore_files "Prod" "2024-02-02" envsC fsC1 = (fsC1, RestoreResult.snapshotNotFound) :=
  restore_missing_snapshot_fails_untouched "Prod" "2024-02-02" envsC wsC fsC1
    (by decide) (by decide) (by decide) (by decide)

/-! ### Claim C8 -/

/-- Claim C8: two backups of the same environment on the same day write the
same dated directory.  The second call (run after the workspace file fr was
edited to content v) creates no new directory, the dated directory for that
day exists, no other dated directory of that environment is created, and the
snapshot file of fr holds the second call's content v.  hsep states that the
workspace does not alias the archive tree. -/
theorem backup_twice_same_day_single_snapshot
    (env today : String) (environments : List (String × Path)) (source_base : Path)
    (fs fs1 fsm fs2 : FS) (fr : String × Path) (v : String)
    (henv : env ≠ "")
    (hlook : lookupEnv environments env = some source_base)
    (hsep : ∀ fr1 ∈ source_files_relative, ∀ fr2 ∈ source_files_relative,
      source_base ++ fr1.2 ≠ (archive_folder ++ [env, today]) ++ [fr2.1])
    (hfr : fr ∈ source_files_relative)
    (hfs1 : fs1 = (backup_files env environments today fs).1)
    (hfsm : fsm = fs1.writeFile (source_base ++ fr.2) v)
    (hfs2 : fs2 = (backup_files env environments today fsm).1) :
    fs2.dirs = fs1.dirs ∧
    fs2.existsDir (archive_folder ++ [env, today]) = true ∧
    (∀ d2 : String, d2 ≠ today →
      fs2.existsDir (archive_folder ++ [env, d2]) = fs.existsDir (archive_folder ++ [env, d2])) ∧
    fs2.lookup ((archive_folder ++ [env, today]) ++ [fr.1]) = some v := by
  have hbk : ∀ g : FS, (backup_files env environments today g).1 =
      source_files_relative.foldl (backupStep source_base (archive_folder ++ [env, today]))
        (g.makedirs (archive_folder ++ [env, today])) := by
    intro g
    simp [backup_files, henv, hlook]
  have h1dirs : fs1.dirs = (fs.makedirs (archive_folder ++ [env, today])).dirs := by
    rw [hfs1, hbk]
    exact foldl_backupStep_dirs _ _ _ _
  have hmemd : ∀ q ∈ pathPrefixes (archive_folder ++ [env, today]), q ∈ fs1.dirs := by
    intro q hq
    rw [h1dirs]
    exact (mem_foldl_addDir _ _ _).mpr (Or.inr hq)
  have hfsmdirs : fsm.dirs = fs1.dirs := by rw [hfsm]; rfl
  have hnoop : fsm.makedirs (archive_folder ++ [env, today]) = fsm := by
    refine FS.makedirs_noop _ _ (fun q hq => ?_)
    rw [hfsmdirs]
    exact hmemd q hq
  have h2 : fs2 = source_files_relative.foldl
      (backupStep source_base (archive_folder ++ [env, today])) fsm := by
    rw [hfs2, hbk, hnoop]
  have hc1 : fs2.dirs = fs1.dirs := by
    rw [h2, foldl_backupStep_dirs, hfsmdirs]
  refine ⟨hc1, ?_, ?_, ?_⟩
  · show decide _ = true
    rw [decide_eq_true_eq, hc1]
    refine hmemd _ (self_mem_pathPrefixes _ ?_)
    simp [archive_folder]
  · intro d2 hd2
    have hnot : (archive_folder ++ [env, d2]) ∉ pathPrefixes (archive_folder ++ [env, today]) := by
      intro hmem
      have hlen : (archive_folder ++ [env, d2]).length =
          (archive_folder ++ [env, today]).length := by simp
      have heq := eq_of_mem_pathPrefixes_of_length hmem hlen
      exact hd2 (by simpa using heq)
    have hiff : (archive_folder ++ [env, d2]) ∈ fs2.dirs ↔
        (archive_folder ++ [env, d2]) ∈ fs.dirs := by
      rw [hc1, h1dirs]
      unfold FS.makedirs
      rw [mem_foldl_addDir]
      constructor
      · rintro (h | h)
        · exact h
        · exact absurd h hnot
      · exact Or.inl
    exact decide_eq_decide.mpr hiff
  · have hvm : fsm.lookup (source_base ++ fr.2) = some v := by
      rw [hfsm]
      exact FS.lookup_writeFile_self fs1 _ v
    simp only [source_files_relative, List.mem_cons, List.not_mem_nil, or_false] at hfr
    have hmem0 : ("org.eclipse.ui.workbench.prefs",
        ([".metadata", ".plugins", "org.eclipse.core.runtime", ".settings",
          "org.eclipse.ui.workbench.prefs"] : Path)) ∈ source_files_relative := by
      simp [source_files_relative]
    have hmem1 : ("workbench.xmi",
        ([".metadata", ".plugins", "org.eclipse.e4.workbench", "workbench.xmi"] : Path)) ∈
        source_files_relative := by
      simp [source_files_relative]
    have hmem2 : ("savedTableConfigs.xml",
        ([".metadata", ".plugins", "com.heiler.ppm.std.ui", "savedTableConfigs.xml"] : Path)) ∈
        source_files_relative := by
      simp [source_files_relative]
    rw [h2]
    simp only [source_files_relative, List.foldl_cons, List.foldl_nil]
    rcases hfr with rfl | rfl | rfl
    · rw [backupStep_lookup_ne _ _ _ _ (last_ne (by decide))]
      rw [backupStep_lookup_ne _ _ _ _ (last_ne (by decide))]
      exact backupStep_writes _ _ _ _ hvm
    · rw [backupStep_lookup_ne _ _ _ _ (last_ne (by decide))]
      refine backupStep_writes _ _ _ _ ?_
      rw [backupStep_lookup_ne _ _ _ _ (hsep _ hmem1 _ hmem0)]
      exact hvm
    · refine backupStep_writes _ _ _ _ ?_
      rw [backupStep_lookup_ne _ _ _ _ (hsep _ hmem2 _ hmem1)]
      rw [backupStep_lookup_ne _ _ _ _ (hsep _ hmem2 _ hmem0)]
      exact hvm

theorem backup_twice_same_day_single_snapshot_witness :
    fsB2.dirs = fsB1.dirs ∧
    fsB2.existsDir (archive_folder ++ ["Prod", "2024-05-05"]) = true ∧
    fsB2.existsDir (archive_folder ++ ["Prod", "2024-06-06"]) =
      fsB0.existsDir (archive_folder ++ ["Prod", "2024-06-06"]) ∧
    fsB2.lookup ((archive_folder ++ ["Prod", "2024-05-05"]) ++
      ["org.eclipse.ui.workbench.prefs"]) = some "EDITED" := by
  obtain ⟨h1, h2, h3, h4⟩ := backup_twice_same_day_single_snapshot "Prod" "2024-05-05"
    envsC wsC fsB0 fsB1 fsB1m fsB2
    ("org.eclipse.ui.workbench.prefs",
      [".metadata", ".plugins", "org.eclipse.core.runtime", ".settings",
       "org.eclipse.ui.workbench.prefs"]) "EDITED"
    (by decide) (by decide) (by decide) (by decide) rfl rfl rfl
  exact ⟨h1, h2, h3 "2024-06-06" (by decide), h4⟩

/-! ### Claim C9 -/

/-- Claim C9: the date dropdown values computed by update_dates are the
immediate subdirectory names of the environment's archive folder sorted
descending (a permutation of the child-directory names, pairwise in
descending string order, which on ISO dates is most recent first), and the
empty sequence when the archive folder for the environment does not exist
(the environment has never been backed up). -/
theorem update_dates_descending_sorted (env : String) (fs : FS) (henv : env ≠ "") :
    (fs.pathExists (archive_folder ++ [env]) = false → update_dates_values env fs = []) ∧
    (fs.pathExists (archive_folder ++ [env]) = true →
      (update_dates_values env fs).Perm (fs.childDirs (archive_folder ++ [env]))) ∧
    (update_dates_values env fs).Pairwise (fun a b => strLe b a = true) := by
  refine ⟨?_, ?_, ?_⟩
  · intro h
    simp [update_dates_values, henv, h]
  · intro h
    have heq : update_dates_values env fs =
        sortDescending (fs.childDirs (archive_folder ++ [env])) := by
      simp [update_dates_values, henv, h]
    rw [heq]
    exact sortDescending_perm _
  · by_cases h : fs.pathExists (archive_folder ++ [env]) = true
    · have heq : update_dates_values env fs =
          sortDescending (fs.childDirs (archive_folder ++ [env])) := by
        simp [update_dates_values, henv, h]
      rw [heq]
      exact sortDescending_sorted _
    · have heq : update_dates_values env fs = [] := by
        simp [update_dates_values, henv, h]
      rw [heq]
      exact List.Pairwise.nil

theorem update_dates_descending_sorted_witness :
    update_dates_values "Prod" fsW = ["2024-03-05", "2024-02-10", "2024-01-01"] ∧
    (update_dates_values "Prod" fsW).Perm (fsW.childDirs (archive_folder ++ ["Prod"])) ∧
    (update_dates_values "Prod" fsW).Pairwise (fun a b => strLe b a = true) := by
  obtain ⟨h1, h2, h3⟩ := update_dates_descending_sorted "Prod" fsW (by decide)
  exact ⟨by decide, h2 (by decide), h3⟩

/-! ### Claim C10 -/

/-- Claim C10: the autodetect registry is keyed by the inferred category, so
two installations classifying to the same category leave a single entry
whose workspace is the later installation's; the lookup all backup, restore
and clear operations perform for that category (environments[env]) then
yields the replacement's workspace. -/
theorem registry_keyed_by_category_replaces (get_ws : String → Option String)
    (f₁ f₂ ws₁ ws₂ : String)
    (h₁ : get_ws f₁ = some ws₁) (h₂ : get_ws f₂ = some ws₂)
    (hcat : infer_environment ws₁ = infer_environment ws₂) :
    autoRegister get_ws [f₁, f₂] = [(infer_environment ws₂, ws₂)] ∧
    lookupEnv (autoRegister get_ws [f₁, f₂]) (infer_environment ws₁) = some ws₂ := by
  have hstep : autoRegister get_ws [f₁, f₂] =
      dictInsert (dictInsert [] (infer_environment ws₁) ws₁) (infer_environment ws₂) ws₂ := by
    simp [autoRegister, h₁, h₂]
  rw [hcat] at hstep
  have hfirst : dictInsert ([] : List (String × String)) (infer_environment ws₂) ws₁ =
      [(infer_environment ws₂, ws₁)] := by
    simp [dictInsert]
  rw [hfirst] at hstep
  have hsecond : dictInsert [(infer_environment ws₂, ws₁)] (infer_environment ws₂) ws₂ =
      [(infer_environment ws₂, ws₂)] := by
    simp [dictInsert]
  rw [hsecond] at hstep
  refine ⟨hstep, ?_⟩
  rw [hstep, hcat, lookupEnv]
  simp [List.find?]

theorem registry_keyed_by_category_replaces_witness :
    autoRegister gTwoProd ["C:\\A", "C:\\B"] = [(infer_environment "C:\\prodB", "C:\\prodB")] ∧
    lookupEnv (autoRegister gTwoProd ["C:\\A", "C:\\B"]) (infer_environment "C:\\prodA") =
      some "C:\\prodB" :=
  registry_keyed_by_category_replaces gTwoProd "C:\\A" "C:\\B" "C:\\prodA" "C:\\prodB"
    (by decide) (by decide) (by decide)

end P360
